import Mathlib

/-!
Verification of the NAX state-synchronization client
(`custom_components/nax/nax/nax_api.py` and
`custom_components/nax/nax/misc/custom_merger.py`).

We shallowly embed the JSON-like Python values handled by the client, the
deep-merge engine (`nax_custom_merger`, a `deepmerge.Merger` configured with
the strategies `[(list, "append"), (dict, merge_dict), (set, "union")]` and
"override" as both fallback and type-conflict strategy), the path index
(`__get_json_paths`, `__get_value_by_json_path`), the pub/sub registry
(`subscribe_data_updates`, `unsubscribe_data_updates`), the frame dispatcher
(`__process_received_json_message`), the write path (`put_data` /
`__post_request`), `logout`, and the reconnection loop (`_reconnect` together
with `async_upgrade_websocket`), and prove or refute the specified
properties of each.
-/

namespace Nax

/-- Python/JSON values as handled by the client.  JSON `null` decodes to
Python `None`, so `Json.null` plays both roles.  Objects are modelled as
insertion-ordered key/value lists, mirroring Python `dict` iteration order;
numbers are modelled as integers (no claim depends on float arithmetic). -/
inductive Json where
  | null : Json
  | bool : Bool → Json
  | num : Int → Json
  | str : String → Json
  | arr : List Json → Json
  | obj : List (String × Json) → Json
  deriving Repr

mutual

def Json.decEq : (a b : Json) → Decidable (a = b)
  | .null, .null => .isTrue rfl
  | .null, .bool _ => .isFalse (fun h => Json.noConfusion h)
  | .null, .num _ => .isFalse (fun h => Json.noConfusion h)
  | .null, .str _ => .isFalse (fun h => Json.noConfusion h)
  | .null, .arr _ => .isFalse (fun h => Json.noConfusion h)
  | .null, .obj _ => .isFalse (fun h => Json.noConfusion h)
  | .bool _, .null => .isFalse (fun h => Json.noConfusion h)
  | .bool x, .bool y =>
      if h : x = y then .isTrue (by rw [h]) else
        .isFalse (fun hh => h (by cases hh; rfl))
  | .bool _, .num _ => .isFalse (fun h => Json.noConfusion h)
  | .bool _, .str _ => .isFalse (fun h => Json.noConfusion h)
  | .bool _, .arr _ => .isFalse (fun h => Json.noConfusion h)
  | .bool _, .obj _ => .isFalse (fun h => Json.noConfusion h)
  | .num _, .null => .isFalse (fun h => Json.noConfusion h)
  | .num _, .bool _ => .isFalse (fun h => Json.noConfusion h)
  | .num x, .num y =>
      if h : x = y then .isTrue (by rw [h]) else
        .isFalse (fun hh => h (by cases hh; rfl))
  | .num _, .str _ => .isFalse (fun h => Json.noConfusion h)
  | .num _, .arr _ => .isFalse (fun h => Json.noConfusion h)
  | .num _, .obj _ => .isFalse (fun h => Json.noConfusion h)
  | .str _, .null => .isFalse (fun h => Json.noConfusion h)
  | .str _, .bool _ => .isFalse (fun h => Json.noConfusion h)
  | .str _, .num _ => .isFalse (fun h => Json.noConfusion h)
  | .str x, .str y =>
      if h : x = y then .isTrue (by rw [h]) else
        .isFalse (fun hh => h (by cases hh; rfl))
  | .str _, .arr _ => .isFalse (fun h => Json.noConfusion h)
  | .str _, .obj _ => .isFalse (fun h => Json.noConfusion h)
  | .arr _, .null => .isFalse (fun h => Json.noConfusion h)
  | .arr _, .bool _ => .isFalse (fun h => Json.noConfusion h)
  | .arr _, .num _ => .isFalse (fun h => Json.noConfusion h)
  | .arr _, .str _ => .isFalse (fun h => Json.noConfusion h)
  | .arr xs, .arr ys =>
      match Json.decEqList xs ys with
      | .isTrue h => .isTrue (by rw [h])
      | .isFalse h => .isFalse (fun hh => h (by cases hh; rfl))
  | .arr _, .obj _ => .isFalse (fun h => Json.noConfusion h)
  | .obj _, .null => .isFalse (fun h => Json.noConfusion h)
  | .obj _, .bool _ => .isFalse (fun h => Json.noConfusion h)
  | .obj _, .num _ => .isFalse (fun h => Json.noConfusion h)
  | .obj _, .str _ => .isFalse (fun h => Json.noConfusion h)
  | .obj _, .arr _ => .isFalse (fun h => Json.noConfusion h)
  | .obj xs, .obj ys =>
      match Json.decEqKvs xs ys with
      | .isTrue h => .isTrue (by rw [h])
      | .isFalse h => .isFalse (fun hh => h (by cases hh; rfl))

def Json.decEqList : (a b : List Json) → Decidable (a = b)
  | [], [] => .isTrue rfl
  | [], _ :: _ => .isFalse (fun h => List.noConfusion h)
  | _ :: _, [] => .isFalse (fun h => List.noConfusion h)
  | x :: xs, y :: ys =>
      match Json.decEq x y with
      | .isTrue h1 =>
          match Json.decEqList xs ys with
          | .isTrue h2 => .isTrue (by rw [h1, h2])
          | .isFalse h2 => .isFalse (fun hh => h2 (by cases hh; rfl))
      | .isFalse h1 => .isFalse (fun hh => h1 (by cases hh; rfl))

def Json.decEqKvs : (a b : List (String × Json)) → Decidable (a = b)
  | [], [] => .isTrue rfl
  | [], _ :: _ => .isFalse (fun h => List.noConfusion h)
  | _ :: _, [] => .isFalse (fun h => List.noConfusion h)
  | (k1, v1) :: xs, (k2, v2) :: ys =>
      if hk : k1 = k2 then
        match Json.decEq v1 v2 with
        | .isTrue h1 =>
            match Json.decEqKvs xs ys with
            | .isTrue h2 => .isTrue (by rw [hk, h1, h2])
            | .isFalse h2 => .isFalse (fun hh => h2 (by cases hh; rfl))
        | .isFalse h1 => .isFalse (fun hh => h1 (by cases hh; rfl))
      else .isFalse (fun hh => hk (by cases hh; rfl))

end

instance : DecidableEq Json := Json.decEq

/-- Python `d.get(k, None)` as an `Option`: the first binding of `k`
in the insertion-ordered item list (a Python dict has at most one). -/
def getKey : List (String × Json) → String → Option Json
  | [], _ => none
  | (k', v') :: rest, k => if k' = k then some v' else getKey rest k

/-- Python `k in d`. -/
def hasKey (kvs : List (String × Json)) (k : String) : Bool :=
  kvs.any (fun kv => kv.1 = k)

/-- Python `d[k] = v`: an existing key keeps its position and is updated in
place; a new key is appended at the end (dict insertion order). -/
def setKey : List (String × Json) → String → Json → List (String × Json)
  | [], k, v => [(k, v)]
  | (k', v') :: rest, k, v =>
      if k' = k then (k', v) :: rest else (k', v') :: setKey rest k v

mutual

/-- `deepmerge.Merger.value_strategy` as configured by `nax_custom_merger`:
two dicts go to the custom `merge_dict` (see `mergeItems`); two lists use the
"append" strategy (`base + nxt`); any other combination — a type conflict or
two scalars — uses the "override" strategy, which returns `nxt`.  (The
`(set, "union")` strategy is unreachable from JSON-decoded data and is not
modelled.) -/
def mergeVal : Json → Json → Json
  | Json.obj b, Json.obj n => Json.obj (mergeItems b n)
  | Json.arr b, Json.arr n => Json.arr (b ++ n)
  | _, nxt => nxt

/-- The loop of `merge_dict` in `custom_merger.py`: for each `(k, v)` of the
incoming dict, insert `v` when `k` is absent from the (already partially
updated) base, otherwise replace `base[k]` by
`config.value_strategy([*path, k], base[k], v)`.  The `if not nxt: return
base` guard is the `[]` case. -/
def mergeItems : List (String × Json) → List (String × Json) → List (String × Json)
  | b, [] => b
  | b, (k, v) :: rest =>
      mergeItems
        (match getKey b k with
          | none => b ++ [(k, v)]
          | some bv => setKey b k (mergeVal bv v))
        rest

end

/-- The value of `base` (the first argument object) after
`nax_custom_merger.merge(base, nxt)` returns: only the dict strategy mutates
`base` in place; the "append" and "override" strategies build or return a
fresh value and leave `base` untouched. -/
def stateAfterMerge (base nxt : Json) : Json :=
  match base, nxt with
  | Json.obj b, Json.obj n => Json.obj (mergeItems b n)
  | _, _ => base

/-- The return value of `nax_custom_merger.merge(base, nxt)` (which the
caller in `__process_received_json_message` discards). -/
def mergeReturn (base nxt : Json) : Json :=
  mergeVal base nxt

/-- Python `path.split(".")` (`str.split` with a one-character separator):
split at every occurrence of the separator, keeping empty segments; the
result is always non-empty (`"".split(".") == [""]`). -/
def pySplitChars (c : Char) : List Char → List (List Char)
  | [] => [[]]
  | x :: xs =>
      if x = c then [] :: pySplitChars c xs
      else
        match pySplitChars c xs with
        | [] => [[x]]
        | r :: rs => (x :: r) :: rs

/-- `path.split(path_separator)` on `String`s, via the character-list model. -/
def pySplit (s : String) (c : Char) : List String :=
  (pySplitChars c s.data).map (fun l => String.mk l)

/-- The loop body of `__get_value_by_json_path`: at each segment, if the
current value is a dict, replace it by `json_obj.get(part, None)`; a
non-dict current value (including `None`) is left untouched. -/
def walkStep (acc : Json) (part : String) : Json :=
  match acc with
  | Json.obj kvs => (getKey kvs part).getD Json.null
  | other => other

/-- `NaxApi.__get_value_by_json_path(json_obj, path)`: split the path on `"."`
and run the walk loop over the segments.  Total — never raises. -/
def getValueByJsonPath (jsonObj : Json) (path : String) : Json :=
  (pySplit path '.').foldl walkStep jsonObj

mutual

/-- `NaxApi.__get_json_paths(json_obj, current_path, paths)`: iterate the
items of the dict in order; for each key emit
`f"{current_path}.{key}" if current_path else key` into the accumulator, and
recurse into dict values.  Both intermediate and leaf paths are emitted. -/
def getJsonPaths : List (String × Json) → String → List String → List String
  | [], _, paths => paths
  | (k, v) :: rest, currentPath, paths =>
      let newPath := if currentPath = "" then k else currentPath ++ "." ++ k
      getJsonPaths rest currentPath (getJsonPathsVal v newPath (paths ++ [newPath]))

/-- The `isinstance(value, dict)` recursion step of `__get_json_paths`. -/
def getJsonPathsVal : Json → String → List String → List String
  | Json.obj kvs, newPath, paths => getJsonPaths kvs newPath paths
  | _, _, paths => paths

end

/-- The data-subscription registry `_data_subscriptions`
(`dict[str, list[Callable]]`), with callbacks named by identifiers. -/
abbrev Subs := List (String × List Nat)

/-- Python `path in self._data_subscriptions`. -/
def subsHasPath (subs : Subs) (path : String) : Bool :=
  (subs.map Prod.fst).contains path

/-- Python `self._data_subscriptions[path]` (the registered callback list;
`[]` when the key is absent, which the source never reads). -/
def subsGet : Subs → String → List Nat
  | [], _ => []
  | (p, cbs) :: rest, path => if p = path then cbs else subsGet rest path

/-- Python `self._data_subscriptions[path] = cbs` on the registry. -/
def subsSet : Subs → String → List Nat → Subs
  | [], path, cbs => [(path, cbs)]
  | (p, old) :: rest, path, cbs =>
      if p = path then (p, cbs) :: rest else (p, old) :: subsSet rest path cbs

/-- A recorded callback invocation `callback(path, value)`:
(callback identifier, path argument, value argument). -/
abbrev CallEvent := Nat × String × Json

/-- `NaxApi.subscribe_data_updates(path, callback, trigger_current_value)`
against a state document with items `state` and registry `subs`: ensure a
(possibly empty) list exists at `path`, append the callback; then, when
`trigger_current_value` and `path` is among `__get_json_paths(_json_state)`
and the resolved current value `is not None`, invoke the callback
synchronously with `(path, value)`.  Returns the new registry and the list
of synchronous invocations performed before returning. -/
def subscribeDataUpdates (state : List (String × Json)) (subs : Subs)
    (path : String) (callback : Nat) (triggerCurrentValue : Bool) :
    Subs × List CallEvent :=
  let subs0 := if subsHasPath subs path then subs else subsSet subs path []
  let subs1 := subsSet subs0 path (subsGet subs0 path ++ [callback])
  let events :=
    if triggerCurrentValue && (getJsonPaths state "" []).contains path then
      let matchingPathValue := getValueByJsonPath (Json.obj state) path
      if matchingPathValue ≠ Json.null then [(callback, path, matchingPathValue)]
      else []
    else []
  (subs1, events)

instance {ε α : Type} [DecidableEq ε] [DecidableEq α] : DecidableEq (Except ε α) :=
  fun a b =>
    match a, b with
    | .ok x, .ok y =>
        if h : x = y then .isTrue (by rw [h]) else
          .isFalse (fun hh => h (by cases hh; rfl))
    | .ok _, .error _ => .isFalse (fun h => Except.noConfusion h)
    | .error _, .ok _ => .isFalse (fun h => Except.noConfusion h)
    | .error x, .error y =>
        if h : x = y then .isTrue (by rw [h]) else
          .isFalse (fun hh => h (by cases hh; rfl))

/-- Python `list.remove(x)`: remove the first occurrence, or raise
`ValueError` when `x` is not present. -/
def pyListRemove (l : List Nat) (x : Nat) : Except Unit (List Nat) :=
  match l with
  | [] => .error ()
  | y :: ys =>
      if y = x then .ok ys
      else
        match pyListRemove ys x with
        | .ok ys' => .ok (y :: ys')
        | .error e => .error e

/-- `NaxApi.unsubscribe_data_updates(path, callback)`: when `path` is a key
of the registry, `self._data_subscriptions[path].remove(callback)` — which
raises `ValueError` when the callback is not in the list (and then skips the
lock release); when `path` is absent, do nothing.  `.error ()` models the
escaping `ValueError`. -/
def unsubscribeDataUpdates (subs : Subs) (path : String) (callback : Nat) :
    Except Unit Subs :=
  if subsHasPath subs path then
    match pyListRemove (subsGet subs path) callback with
    | .ok cbs => .ok (subsSet subs path cbs)
    | .error e => .error e
  else .ok subs

/-- `NaxApi.__process_received_json_message(json_message)` against state
document `state` and registry `subs`: a dict message with an `"Actions"` key
is only inspected for statuses (never merged, no callbacks); any other dict
is merged into `_json_state` via `nax_custom_merger.merge`, the paths of the
*message* are enumerated, and for every enumerated path registered in
`_data_subscriptions` each callback is invoked with the value resolved from
the *message* (not the merged state).  A non-dict message leaves the state
unchanged and invokes nothing (the merge's "override" return value is
discarded and path enumeration fails into the logged `except` branch).
Returns the state document after the call and the invocations in order. -/
def processReceivedJsonMessage (state : Json) (subs : Subs) (msg : Json) :
    Json × List CallEvent :=
  match msg with
  | Json.obj kvs =>
      if hasKey kvs "Actions" then (state, [])
      else
        let state' := stateAfterMerge state msg
        let newMessagePaths := getJsonPaths kvs "" []
        let matchingPaths := newMessagePaths.filter (fun p => subsHasPath subs p)
        let events := matchingPaths.flatMap (fun p =>
          (subsGet subs p).map (fun c => (c, p, getValueByJsonPath msg p)))
        (state', events)
  | _ => (state, [])

/-- Externally visible events of one reconnection episode: login attempts
(`http_login`, with outcome), WebSocket upgrade attempts
(`async_upgrade_websocket`, with outcome), and connection-subscriber
notifications `callback(connected)`. -/
inductive RcEvent where
  | loginAttempt : Bool → RcEvent
  | upgradeAttempt : Bool → RcEvent
  | notify : Bool → RcEvent
  deriving Repr, DecidableEq

/-- The event trace of `NaxApi._reconnect()`'s `reconnect_coroutine` run
against a schedule of attempt outcomes (HTTP-login success, upgrade
success), one pair per loop iteration; the trace is truncated when the
schedule is exhausted.  Each iteration: `http_login()`; on HTTP success,
`async_upgrade_websocket()`, which itself notifies every connection
subscriber with `True` right after the socket connects and before it
returns; on full success the coroutine returns; otherwise it sets
`_ws_client_connected = False`, notifies every connection subscriber with
`False`, sleeps, and retries.  No notification precedes the first login
attempt — the enclosing `__ws_handler` close branch only logs and calls
`_reconnect()`. -/
def reconnectTrace : List (Bool × Bool) → List RcEvent
  | [] => []
  | (h, w) :: rest =>
      RcEvent.loginAttempt h ::
        ((if h then
            RcEvent.upgradeAttempt w :: (if w then [RcEvent.notify true] else [])
          else []) ++
          (if h && w then []
           else RcEvent.notify false :: reconnectTrace rest))

/-- `isinstance(j, dict)`. -/
def Json.isObj : Json → Bool
  | Json.obj _ => true
  | _ => false

/-- The `__get_value_by_json_path` loop over an explicit segment list, so
that `getValueByJsonPath j path = walkSegs (pySplit path '.') j`. -/
def walkSegs (parts : List String) (j : Json) : Json :=
  parts.foldl walkStep j

/-! ## Supporting lemmas -/

theorem getValueByJsonPath_eq_walkSegs (j : Json) (path : String) :
    getValueByJsonPath j path = walkSegs (pySplit path '.') j :=
  rfl

/-- A non-dict value survives the whole `__get_value_by_json_path` walk. -/
theorem walkSegs_not_obj (parts : List String) (j : Json)
    (h : Json.isObj j = false) : walkSegs parts j = j := by
  induction parts with
  | nil => rfl
  | cons part rest ih =>
      have hstep : walkStep j part = j := by
        cases j <;> first | rfl | simp [Json.isObj] at h
      show walkSegs rest (walkStep j part) = j
      rw [hstep, ih]

theorem getKey_setKey_self (b : List (String × Json)) (k : String) (v : Json) :
    getKey (setKey b k v) k = some v := by
  induction b with
  | nil => simp [setKey, getKey]
  | cons kv rest ih =>
      obtain ⟨k', v'⟩ := kv
      by_cases h : k' = k
      · simp [setKey, getKey, h]
      · simp [setKey, getKey, h, ih]

theorem getKey_setKey_ne (b : List (String × Json)) (k' k : String) (v : Json)
    (h : k' ≠ k) : getKey (setKey b k' v) k = getKey b k := by
  induction b with
  | nil => simp [setKey, getKey, h]
  | cons kv rest ih =>
      obtain ⟨k0, v0⟩ := kv
      by_cases h0 : k0 = k'
      · subst h0
        simp [setKey, getKey, h]
      · by_cases h1 : k0 = k
        · subst h1
          simp [setKey, getKey, h0]
        · simp [setKey, getKey, h0, h1, ih]

theorem getKey_append_singleton_ne (b : List (String × Json)) (k' k : String)
    (v : Json) (h : k' ≠ k) : getKey (b ++ [(k', v)]) k = getKey b k := by
  induction b with
  | nil => simp [getKey, h]
  | cons kv rest ih =>
      obtain ⟨k0, v0⟩ := kv
      by_cases h0 : k0 = k
      · simp [getKey, h0]
      · simp [getKey, h0, ih]

/-- A key not among the incoming dict's keys is untouched by `merge_dict`. -/
theorem getKey_mergeItems_not_mem (n : List (String × Json)) (b : List (String × Json))
    (k : String) (h : k ∉ n.map Prod.fst) :
    getKey (mergeItems b n) k = getKey b k := by
  induction n generalizing b with
  | nil => rfl
  | cons kv rest ih =>
      obtain ⟨k', v'⟩ := kv
      simp only [List.map_cons, List.mem_cons] at h
      push_neg at h
      obtain ⟨hk', hrest⟩ := h
      show getKey (mergeItems _ rest) k = getKey b k
      rw [ih _ hrest]
      cases hgb : getKey b k' with
      | none => simp only [hgb]
                exact getKey_append_singleton_ne b k' k v' (fun hh => hk' hh.symm)
      | some bv => simp only [hgb]
                   exact getKey_setKey_ne b k' k _ (fun hh => hk' hh.symm)

/-! ## Claim theorems: the Merge Engine (C2, C3) -/

/-- C2, counterexample: with the configured `(list, "append")` strategy,
merging `{"a": [2]}` into `{"a": [1]}` yields `{"a": [1, 2]}` — the
concatenation of old and new — and not `{"a": [2]}` as the claim (list
replacement) requires. -/
theorem c2_counterexample :
    stateAfterMerge (Json.obj [("a", Json.arr [Json.num 1])])
        (Json.obj [("a", Json.arr [Json.num 2])])
      = Json.obj [("a", Json.arr [Json.num 1, Json.num 2])] ∧
    stateAfterMerge (Json.obj [("a", Json.arr [Json.num 1])])
        (Json.obj [("a", Json.arr [Json.num 2])])
      ≠ Json.obj [("a", Json.arr [Json.num 2])] := by
  decide

/-- C2, amended: for every base document and incoming fragment (with the
fragment's keys distinct, as Python dict keys are), when a key holds a list
in both, the merge *appends*: the merged value at that key is the existing
list concatenated with the incoming list. -/
theorem c2_lists_append (b n : List (String × Json)) (k : String)
    (xs ys : List Json)
    (hn : (n.map Prod.fst).Nodup)
    (hb : getKey b k = some (Json.arr xs))
    (hk : getKey n k = some (Json.arr ys)) :
    getKey (mergeItems b n) k = some (Json.arr (xs ++ ys)) := by
  induction n generalizing b with
  | nil => simp [getKey] at hk
  | cons kv rest ih =>
      obtain ⟨k', v'⟩ := kv
      rw [List.map_cons, List.nodup_cons] at hn
      obtain ⟨hk'mem, hrest⟩ := hn
      by_cases hkk : k' = k
      · subst hkk
        simp only [getKey, if_pos, eq_self_iff_true, if_true, Option.some.injEq] at hk
        subst hk
        have unf : mergeItems b ((k', Json.arr ys) :: rest)
            = mergeItems (setKey b k' (Json.arr (xs ++ ys))) rest := by
          simp only [mergeItems, hb, mergeVal]
        rw [unf, getKey_mergeItems_not_mem rest _ k' hk'mem, getKey_setKey_self]
      · simp only [getKey, if_neg hkk] at hk
        show getKey (mergeItems _ rest) k = _
        cases hgb : getKey b k' with
        | none =>
            simp only [hgb]
            exact ih _ hrest
              (by rw [getKey_append_singleton_ne b k' k v' hkk]; exact hb) hk
        | some bv =>
            simp only [hgb]
            exact ih _ hrest
              (by rw [getKey_setKey_ne b k' k _ hkk]; exact hb) hk

/-- C2, witness for the amended theorem at the counterexample's input. -/
theorem c2_lists_append_witness :
    getKey (mergeItems [("a", Json.arr [Json.num 1])] [("a", Json.arr [Json.num 2])]) "a"
      = some (Json.arr ([Json.num 1] ++ [Json.num 2])) :=
  c2_lists_append [("a", Json.arr [Json.num 1])] [("a", Json.arr [Json.num 2])]
    "a" [Json.num 1] [Json.num 2] (by decide) (by decide) (by decide)

/-- C3, counterexample: `nax_custom_merger.merge(D, None)` does *not* return
the base document — `None`/`null` against a dict is a type conflict, and the
configured type-conflict strategy "override" returns the incoming `None`. -/
theorem c3_counterexample :
    mergeReturn (Json.obj [("a", Json.num 1)]) Json.null
      ≠ Json.obj [("a", Json.num 1)] := by
  decide

/-- C3, amended: for every document D, merging the empty map into D is a
full no-op (D is unchanged and the merge returns D); merging `None` into D
leaves D itself unchanged, but the merge function returns `None` (the
"override" type-conflict result), not the base document. -/
theorem c3_empty_none_merge (b : List (String × Json)) :
    mergeReturn (Json.obj b) (Json.obj []) = Json.obj b ∧
    stateAfterMerge (Json.obj b) (Json.obj []) = Json.obj b ∧
    stateAfterMerge (Json.obj b) Json.null = Json.obj b ∧
    mergeReturn (Json.obj b) Json.null = Json.null :=
  ⟨rfl, rfl, rfl, rfl⟩

/-! ## Claim theorems: the Path Index (C6) -/

theorem getKey_eq_none_of_not_hasKey (kvs : List (String × Json)) (k : String)
    (h : hasKey kvs k = false) : getKey kvs k = none := by
  induction kvs with
  | nil => rfl
  | cons kv rest ih =>
      obtain ⟨k0, v0⟩ := kv
      simp only [hasKey, List.any_cons, Bool.or_eq_false_iff] at h
      obtain ⟨h0, hrest⟩ := h
      simp only [getKey]
      rw [if_neg (by simpa using h0)]
      exact ih hrest

/-- Walking into a dict that lacks the next segment turns the accumulator
into `None`, and `None` survives to the end of the path. -/
theorem walkSegs_absent (segs1 segs2 : List String) (part : String) (j : Json)
    (kvs : List (String × Json))
    (hwalk : walkSegs segs1 j = Json.obj kvs) (habs : hasKey kvs part = false) :
    walkSegs (segs1 ++ part :: segs2) j = Json.null := by
  have hget : getKey kvs part = none := getKey_eq_none_of_not_hasKey kvs part habs
  show List.foldl walkStep j (segs1 ++ part :: segs2) = Json.null
  rw [List.foldl_append]
  show walkSegs (part :: segs2) (walkSegs segs1 j) = Json.null
  rw [hwalk]
  show walkSegs segs2 (walkStep (Json.obj kvs) part) = Json.null
  have : walkStep (Json.obj kvs) part = Json.null := by
    simp [walkStep, hget]
  rw [this]
  exact walkSegs_not_obj segs2 Json.null rfl

/-- C6, counterexample: resolving `"X.Y"` against `{"X": 5}` walks into the
non-map value `5`, skips the remaining segment and returns `5` — a spurious
value instead of the none the claim requires for a non-map intermediate
node. -/
theorem c6_counterexample :
    getValueByJsonPath (Json.obj [("X", Json.num 5)]) "X.Y" = Json.num 5 ∧
    Json.num 5 ≠ Json.null := by
  decide

/-- C6, amended: `__get_value_by_json_path` never raises (it is total); if
the walk reaches a dict that lacks the next path segment the result is
`None`, and `None` survives the remaining segments; but when the walk
reaches a non-dict value with segments still left, those segments are
ignored and that value itself is returned (not none). -/
theorem c6_resolve_fail_soft (j j' : Json) (path path' : String)
    (kvs : List (String × Json)) (segs1 segs2 : List String) (part : String) :
    (Json.isObj j' = false → getValueByJsonPath j' path' = j') ∧
    (pySplit path '.' = segs1 ++ part :: segs2 →
      walkSegs segs1 j = Json.obj kvs →
      hasKey kvs part = false →
      getValueByJsonPath j path = Json.null) := by
  constructor
  · intro h
    exact walkSegs_not_obj (pySplit path' '.') j' h
  · intro hsplit hwalk habs
    rw [getValueByJsonPath_eq_walkSegs, hsplit]
    exact walkSegs_absent segs1 segs2 part j kvs hwalk habs

/-- C6, witness: resolving `"X.Y"` against the non-map `5` returns `5`
unchanged, and resolving `"X.Y.Z"` against `{"X": {}}` (segment `"Y"`
absent) returns `None`. -/
theorem c6_resolve_fail_soft_witness :
    getValueByJsonPath (Json.num 5) "X.Y" = Json.num 5 ∧
    getValueByJsonPath (Json.obj [("X", Json.obj [])]) "X.Y.Z" = Json.null :=
  ⟨(c6_resolve_fail_soft (Json.obj [("X", Json.obj [])]) (Json.num 5)
      "X.Y.Z" "X.Y" [] ["X"] ["Z"] "Y").1 (by decide),
   (c6_resolve_fail_soft (Json.obj [("X", Json.obj [])]) (Json.num 5)
      "X.Y.Z" "X.Y" [] ["X"] ["Z"] "Y").2 (by decide) (by decide) (by decide)⟩

/-! ## Claim theorems: subscription registry (C4, C7, C10) -/

/-- C4: the claim is right and the code is wrong.  Registering a callback
once under a path and unsubscribing twice: the first call removes the
callback but leaves the (now empty) list keyed under the path, so the second
call reaches `self._data_subscriptions[path].remove(callback)` on a list not
containing the callback, and `list.remove` raises `ValueError` (modelled as
`.error ()`), also skipping the `_subscribe_data_lock.release()`.
Unsubscribing from a never-subscribed path, by contrast, is a no-op. -/
theorem c4_unsubscribe_twice_raises :
    (subscribeDataUpdates [] [] "X.Y.Z" 0 false).1 = [("X.Y.Z", [0])] ∧
    unsubscribeDataUpdates [("X.Y.Z", [0])] "X.Y.Z" 0 = .ok [("X.Y.Z", [])] ∧
    unsubscribeDataUpdates [("X.Y.Z", [])] "X.Y.Z" 0 = .error () ∧
    unsubscribeDataUpdates [] "X.Y.Z" 0 = .ok [] := by
  decide

/-- C10: replay on `subscribe(path, C, trigger_current_value=True)` is
guarded by `matching_path_value is not None` — whenever the State Document
resolves to `None`/`null` at the path (in particular when the path exists
but stores JSON `null`), no synchronous callback invocation occurs. -/
theorem c10_null_value_no_replay (state : List (String × Json)) (subs : Subs)
    (path : String) (c : Nat)
    (h : getValueByJsonPath (Json.obj state) path = Json.null) :
    (subscribeDataUpdates state subs path c true).2 = [] := by
  unfold subscribeDataUpdates
  simp [h]

/-- C10, witness: with state `{"X": {"Y": {"Z": null}}}` — the path
`"X.Y.Z"` exists but stores `null` — no replay invocation occurs. -/
theorem c10_null_value_no_replay_witness :
    (subscribeDataUpdates [("X", Json.obj [("Y", Json.obj [("Z", Json.null)])])]
      [] "X.Y.Z" 0 true).2 = [] :=
  c10_null_value_no_replay [("X", Json.obj [("Y", Json.obj [("Z", Json.null)])])]
    [] "X.Y.Z" 0 (by decide)

theorem subsGet_subsSet_self (subs : Subs) (p : String) (cbs : List Nat) :
    subsGet (subsSet subs p cbs) p = cbs := by
  induction subs with
  | nil => simp [subsSet, subsGet]
  | cons kv rest ih =>
      obtain ⟨p0, cbs0⟩ := kv
      by_cases h : p0 = p
      · subst h
        simp [subsSet, subsGet]
      · simp [subsSet, subsGet, h, ih]

/-- C7, counterexample: in state `{"X": 5}` the path `"X.Y"` *does* resolve
to a value (`5`, via the non-map pass-through of
`__get_value_by_json_path`), yet `subscribe("X.Y", C,
trigger_current_value=True)` performs no immediate invocation, because
`"X.Y"` is not among `__get_json_paths(_json_state)`. -/
theorem c7_counterexample :
    getValueByJsonPath (Json.obj [("X", Json.num 5)]) "X.Y" ≠ Json.null ∧
    (subscribeDataUpdates [("X", Json.num 5)] [] "X.Y" 0 true).2 = [] := by
  decide

/-- C7, amended: `subscribe(path, C, trigger_current_value=True)` registers
the callback and invokes it synchronously, before returning, with
`(path, current value)` exactly when the path is among the enumerated paths
of the State Document *and* the value resolved there is non-null; with
`trigger_current_value=False` no immediate invocation occurs. -/
theorem c7_trigger_replay (state : List (String × Json)) (subs : Subs)
    (path : String) (c : Nat) :
    subsGet (subscribeDataUpdates state subs path c true).1 path
      = (if subsHasPath subs path then subsGet subs path else []) ++ [c] ∧
    (subscribeDataUpdates state subs path c true).2
      = (if (getJsonPaths state "" []).contains path
            ∧ getValueByJsonPath (Json.obj state) path ≠ Json.null then
          [(c, path, getValueByJsonPath (Json.obj state) path)]
        else []) ∧
    (subscribeDataUpdates state subs path c false).2 = [] := by
  refine ⟨?_, ?_, rfl⟩
  · show subsGet (subsSet _ path (subsGet _ path ++ [c])) path = _
    rw [subsGet_subsSet_self]
    by_cases h : subsHasPath subs path
    · simp only [h, if_true, if_pos]
    · simp only [h, if_false, Bool.false_eq_true, if_neg, subsGet_subsSet_self]
  · show (if (true && (getJsonPaths state "" []).contains path) = true then _ else _) = _
    by_cases hc : path ∈ getJsonPaths state "" []
    · by_cases hv : getValueByJsonPath (Json.obj state) path = Json.null
      · simp [hc, hv]
      · simp [hc, hv]
    · simp [hc]

/-- C7, witness: with state `{"X": {"Y": {"Z": 9}}}`, a new subscription to
`"X.Y.Z"` with `trigger_current_value=True` is registered and fires
synchronously with `("X.Y.Z", 9)`; with `False` it does not fire. -/
theorem c7_trigger_replay_witness :
    subsGet (subscribeDataUpdates
        [("X", Json.obj [("Y", Json.obj [("Z", Json.num 9)])])] [] "X.Y.Z" 2 true).1
        "X.Y.Z"
      = (if subsHasPath [] "X.Y.Z" then subsGet [] "X.Y.Z" else []) ++ [2] ∧
    (subscribeDataUpdates
        [("X", Json.obj [("Y", Json.obj [("Z", Json.num 9)])])] [] "X.Y.Z" 2 true).2
      = (if (getJsonPaths [("X", Json.obj [("Y", Json.obj [("Z", Json.num 9)])])]
              "" []).contains "X.Y.Z"
            ∧ getValueByJsonPath
                (Json.obj [("X", Json.obj [("Y", Json.obj [("Z", Json.num 9)])])])
                "X.Y.Z" ≠ Json.null then
          [(2, "X.Y.Z",
            getValueByJsonPath
              (Json.obj [("X", Json.obj [("Y", Json.obj [("Z", Json.num 9)])])])
              "X.Y.Z")]
        else []) ∧
    (subscribeDataUpdates
        [("X", Json.obj [("Y", Json.obj [("Z", Json.num 9)])])] [] "X.Y.Z" 2 false).2
      = [] :=
  c7_trigger_replay [("X", Json.obj [("Y", Json.obj [("Z", Json.num 9)])])]
    [] "X.Y.Z" 2

/-! ## Claim theorems: the write path (C5) and logout (C8) -/

/-- Restricting the dispatched invocations to one path: with a
duplicate-free path list, the invocations whose path component is `p` are
exactly `p`'s block when `p` occurs, and absent otherwise. -/
theorem filter_flatMap_path (l : List String) (p : String)
    (f : String → List Nat) (v : String → Json) (hnd : l.Nodup) :
    (l.flatMap (fun q => (f q).map (fun c => (c, q, v q)))).filter
        (fun e => e.2.1 == p)
      = if p ∈ l then (f p).map (fun c => (c, p, v p)) else [] := by
  induction l with
  | nil => simp
  | cons q rest ih =>
      rw [List.nodup_cons] at hnd
      obtain ⟨hq, hrest⟩ := hnd
      rw [List.flatMap_cons, List.filter_append, ih hrest]
      by_cases hqp : q = p
      · subst hqp
        have hpred : ((fun e : CallEvent => e.2.1 == q) ∘ fun c => (c, q, v q))
            = fun _ => true := by
          funext c
          simp
        simp [List.filter_map, hpred, hq]
      · have hpred : ((fun e : CallEvent => e.2.1 == p) ∘ fun c => (c, q, v q))
            = fun _ => false := by
          funext c
          simpa using hqp
        simp [List.filter_map, hpred, Ne.symm hqp]

theorem subsGet_eq_nil_of_not_hasPath (subs : Subs) (p : String)
    (h : subsHasPath subs p = false) : subsGet subs p = [] := by
  induction subs with
  | nil => rfl
  | cons kv rest ih =>
      obtain ⟨p0, cbs0⟩ := kv
      simp only [subsHasPath, List.map_cons, List.contains_cons,
        Bool.or_eq_false_iff] at h
      obtain ⟨h0, hrest⟩ := h
      have h0' : p ≠ p0 := by simpa using h0
      simp only [subsGet]
      rw [if_neg (Ne.symm h0')]
      exact ih (by simpa [subsHasPath] using hrest)

/-- C1: for a state fragment (a dict frame without an `"Actions"` key, with
the enumerated fragment paths duplicate-free, as Python dict keys are),
`__process_received_json_message` invokes the callbacks registered under a
path `p` **iff** `p` is among the paths present in the fragment; when it
does, each registration under `p` is invoked exactly once, in registration
order, with `(p, value)` where the value is resolved from the fragment
itself (`state` does not occur on the right-hand side — the merged whole is
not consulted); a fragment containing only sibling keys of `p` contributes
no invocation for `p`. -/
theorem c1_dispatch_exact_paths (state : Json) (subs : Subs)
    (kvs : List (String × Json)) (p : String)
    (hnd : (getJsonPaths kvs "" []).Nodup)
    (hact : hasKey kvs "Actions" = false) :
    ((processReceivedJsonMessage state subs (Json.obj kvs)).2).filter
        (fun e => e.2.1 == p)
      = if p ∈ getJsonPaths kvs "" [] then
          (subsGet subs p).map
            (fun c => (c, p, getValueByJsonPath (Json.obj kvs) p))
        else [] := by
  have hunf : (processReceivedJsonMessage state subs (Json.obj kvs)).2
      = ((getJsonPaths kvs "" []).filter (fun q => subsHasPath subs q)).flatMap
          (fun q => (subsGet subs q).map
            (fun c => (c, q, getValueByJsonPath (Json.obj kvs) q))) := by
    simp only [processReceivedJsonMessage, hact, Bool.false_eq_true, if_false]
  rw [hunf, filter_flatMap_path _ p _ _ (hnd.filter _)]
  by_cases hmem : p ∈ getJsonPaths kvs "" []
  · by_cases hsub : subsHasPath subs p
    · rw [if_pos (List.mem_filter.mpr ⟨hmem, hsub⟩), if_pos hmem]
    · rw [if_neg (fun hin => hsub (List.mem_filter.mp hin).2), if_pos hmem,
        subsGet_eq_nil_of_not_hasPath subs p (by simpa using hsub)]
      rfl
  · rw [if_neg (fun hin => hmem (List.mem_filter.mp hin).1), if_neg hmem]

/-- C1, witness: with callback `0` registered under `"X.Y.Z"`, the sibling
fragment `{"X": {"Y": {"W": 1}}}` produces no invocation for `"X.Y.Z"`,
while `{"X": {"Y": {"Z": 9}}}` produces exactly one, `("X.Y.Z", 9)`. -/
theorem c1_dispatch_exact_paths_witness :
    (((processReceivedJsonMessage (Json.obj []) [("X.Y.Z", [0])]
        (Json.obj [("X", Json.obj [("Y", Json.obj [("W", Json.num 1)])])])).2).filter
        (fun e => e.2.1 == "X.Y.Z")
      = if "X.Y.Z" ∈ getJsonPaths
            [("X", Json.obj [("Y", Json.obj [("W", Json.num 1)])])] "" [] then
          (subsGet [("X.Y.Z", [0])] "X.Y.Z").map
            (fun c => (c, "X.Y.Z", getValueByJsonPath
              (Json.obj [("X", Json.obj [("Y", Json.obj [("W", Json.num 1)])])])
              "X.Y.Z"))
        else []) ∧
    (((processReceivedJsonMessage (Json.obj []) [("X.Y.Z", [0])]
        (Json.obj [("X", Json.obj [("Y", Json.obj [("Z", Json.num 9)])])])).2).filter
        (fun e => e.2.1 == "X.Y.Z")
      = if "X.Y.Z" ∈ getJsonPaths
            [("X", Json.obj [("Y", Json.obj [("Z", Json.num 9)])])] "" [] then
          (subsGet [("X.Y.Z", [0])] "X.Y.Z").map
            (fun c => (c, "X.Y.Z", getValueByJsonPath
              (Json.obj [("X", Json.obj [("Y", Json.obj [("Z", Json.num 9)])])])
              "X.Y.Z"))
        else []) :=
  ⟨c1_dispatch_exact_paths (Json.obj []) [("X.Y.Z", [0])]
      [("X", Json.obj [("Y", Json.obj [("W", Json.num 1)])])] "X.Y.Z"
      (by decide) (by decide),
   c1_dispatch_exact_paths (Json.obj []) [("X.Y.Z", [0])]
      [("X", Json.obj [("Y", Json.obj [("Z", Json.num 9)])])] "X.Y.Z"
      (by decide) (by decide)⟩

/-! ## Claim theorems: the Reconnection Supervisor (C9) -/

theorem reconnectTrace_false (w : Bool) (rest : List (Bool × Bool)) :
    reconnectTrace ((false, w) :: rest)
      = RcEvent.loginAttempt false :: RcEvent.notify false :: reconnectTrace rest := by
  simp [reconnectTrace]

theorem reconnectTrace_true_false (rest : List (Bool × Bool)) :
    reconnectTrace ((true, false) :: rest)
      = RcEvent.loginAttempt true :: RcEvent.upgradeAttempt false ::
          RcEvent.notify false :: reconnectTrace rest := by
  simp [reconnectTrace]

theorem reconnectTrace_true_true (rest : List (Bool × Bool)) :
    reconnectTrace ((true, true) :: rest)
      = [RcEvent.loginAttempt true, RcEvent.upgradeAttempt true,
          RcEvent.notify true] := by
  simp [reconnectTrace]

/-- Every login attempt in a reconnection trace is either the very first
event of the episode — issued with **no** preceding notification — or
immediately preceded by a `connected=False` notification from the previous
failed cycle. -/
theorem reconnect_login_preceded (env : List (Bool × Bool)) :
    ∀ (pre post : List RcEvent) (b : Bool),
      reconnectTrace env = pre ++ RcEvent.loginAttempt b :: post →
      pre = [] ∨ ∃ pre', pre = pre' ++ [RcEvent.notify false] := by
  induction env with
  | nil =>
      intro pre post b h
      have hnil : reconnectTrace [] = [] := rfl
      rw [hnil] at h
      cases pre <;> simp at h
  | cons hw rest ih =>
      obtain ⟨h, w⟩ := hw
      intro pre post b heq
      cases h
      · rw [reconnectTrace_false] at heq
        rcases pre with _ | ⟨e1, pre⟩
        · exact Or.inl rfl
        · rw [List.cons_append] at heq
          obtain ⟨he1, heq⟩ := List.cons.inj heq
          rcases pre with _ | ⟨e2, pre⟩
          · rw [List.nil_append] at heq
            obtain ⟨hc, -⟩ := List.cons.inj heq
            exact RcEvent.noConfusion hc
          · rw [List.cons_append] at heq
            obtain ⟨he2, heq⟩ := List.cons.inj heq
            rcases ih pre post b heq with h0 | ⟨q, hq⟩
            · subst h0
              exact Or.inr ⟨[e1], by rw [← he2]; rfl⟩
            · subst hq
              exact Or.inr ⟨e1 :: e2 :: q, by simp⟩
      · cases w
        · rw [reconnectTrace_true_false] at heq
          rcases pre with _ | ⟨e1, pre⟩
          · exact Or.inl rfl
          · rw [List.cons_append] at heq
            obtain ⟨he1, heq⟩ := List.cons.inj heq
            rcases pre with _ | ⟨e2, pre⟩
            · rw [List.nil_append] at heq
              obtain ⟨hc, -⟩ := List.cons.inj heq
              exact RcEvent.noConfusion hc
            · rw [List.cons_append] at heq
              obtain ⟨he2, heq⟩ := List.cons.inj heq
              rcases pre with _ | ⟨e3, pre⟩
              · rw [List.nil_append] at heq
                obtain ⟨hc, -⟩ := List.cons.inj heq
                exact RcEvent.noConfusion hc
              · rw [List.cons_append] at heq
                obtain ⟨he3, heq⟩ := List.cons.inj heq
                rcases ih pre post b heq with h0 | ⟨q, hq⟩
                · subst h0
                  exact Or.inr ⟨[e1, e2], by rw [← he3]; rfl⟩
                · subst hq
                  exact Or.inr ⟨e1 :: e2 :: e3 :: q, by simp⟩
        · rw [reconnectTrace_true_true] at heq
          rcases pre with _ | ⟨e1, pre⟩
          · exact Or.inl rfl
          · rw [List.cons_append] at heq
            obtain ⟨he1, heq⟩ := List.cons.inj heq
            rcases pre with _ | ⟨e2, pre⟩
            · rw [List.nil_append] at heq
              obtain ⟨hc, -⟩ := List.cons.inj heq
              exact RcEvent.noConfusion hc
            · rw [List.cons_append] at heq
              obtain ⟨he2, heq⟩ := List.cons.inj heq
              rcases pre with _ | ⟨e3, pre⟩
              · rw [List.nil_append] at heq
                obtain ⟨hc, -⟩ := List.cons.inj heq
                exact RcEvent.noConfusion hc
              · rw [List.cons_append] at heq
                obtain ⟨he3, heq⟩ := List.cons.inj heq
                cases pre <;> simp at heq

/-- A `connected=True` notification is terminal in a reconnection trace and
is immediately preceded by a successful upgrade attempt which is immediately
preceded by a successful login attempt. -/
theorem reconnect_notify_true_terminal (env : List (Bool × Bool)) :
    ∀ (pre post : List RcEvent),
      reconnectTrace env = pre ++ RcEvent.notify true :: post →
      post = [] ∧ ∃ pre', pre = pre' ++
        [RcEvent.loginAttempt true, RcEvent.upgradeAttempt true] := by
  induction env with
  | nil =>
      intro pre post h
      have hnil : reconnectTrace [] = [] := rfl
      rw [hnil] at h
      cases pre <;> simp at h
  | cons hw rest ih =>
      obtain ⟨h, w⟩ := hw
      intro pre post heq
      cases h
      · rw [reconnectTrace_false] at heq
        rcases pre with _ | ⟨e1, pre⟩
        · rw [List.nil_append] at heq
          obtain ⟨hc, -⟩ := List.cons.inj heq
          exact RcEvent.noConfusion hc
        · rw [List.cons_append] at heq
          obtain ⟨he1, heq⟩ := List.cons.inj heq
          rcases pre with _ | ⟨e2, pre⟩
          · rw [List.nil_append] at heq
            obtain ⟨hc, -⟩ := List.cons.inj heq
            exact absurd (RcEvent.notify.inj hc) (by decide)
          · rw [List.cons_append] at heq
            obtain ⟨he2, heq⟩ := List.cons.inj heq
            obtain ⟨hpost, q, hq⟩ := ih pre post heq
            subst hq
            exact ⟨hpost, e1 :: e2 :: q, by simp⟩
      · cases w
        · rw [reconnectTrace_true_false] at heq
          rcases pre with _ | ⟨e1, pre⟩
          · rw [List.nil_append] at heq
            obtain ⟨hc, -⟩ := List.cons.inj heq
            exact RcEvent.noConfusion hc
          · rw [List.cons_append] at heq
            obtain ⟨he1, heq⟩ := List.cons.inj heq
            rcases pre with _ | ⟨e2, pre⟩
            · rw [List.nil_append] at heq
              obtain ⟨hc, -⟩ := List.cons.inj heq
              exact RcEvent.noConfusion hc
            · rw [List.cons_append] at heq
              obtain ⟨he2, heq⟩ := List.cons.inj heq
              rcases pre with _ | ⟨e3, pre⟩
              · rw [List.nil_append] at heq
                obtain ⟨hc, -⟩ := List.cons.inj heq
                exact absurd (RcEvent.notify.inj hc) (by decide)
              · rw [List.cons_append] at heq
                obtain ⟨he3, heq⟩ := List.cons.inj heq
                obtain ⟨hpost, q, hq⟩ := ih pre post heq
                subst hq
                exact ⟨hpost, e1 :: e2 :: e3 :: q, by simp⟩
        · rw [reconnectTrace_true_true] at heq
          rcases pre with _ | ⟨e1, pre⟩
          · rw [List.nil_append] at heq
            obtain ⟨hc, -⟩ := List.cons.inj heq
            exact RcEvent.noConfusion hc
          · rw [List.cons_append] at heq
            obtain ⟨he1, heq⟩ := List.cons.inj heq
            rcases pre with _ | ⟨e2, pre⟩
            · rw [List.nil_append] at heq
              obtain ⟨hc, -⟩ := List.cons.inj heq
              exact RcEvent.noConfusion hc
            · rw [List.cons_append] at heq
              obtain ⟨he2, heq⟩ := List.cons.inj heq
              rcases pre with _ | ⟨e3, pre⟩
              · rw [List.nil_append] at heq
                obtain ⟨-, hpost⟩ := List.cons.inj heq
                exact ⟨hpost.symm, [], by rw [← he1, ← he2]; rfl⟩
              · rw [List.cons_append] at heq
                obtain ⟨he3, heq⟩ := List.cons.inj heq
                cases pre <;> simp at heq

/-- C9, counterexample: a reconnection cycle whose first attempt succeeds —
schedule `[(login ok, upgrade ok)]` — issues its login attempt as the very
first event and emits **no** `connected=False` notification at any point, so
no disconnection notification precedes the next login attempt. -/
theorem c9_counterexample :
    reconnectTrace [(true, true)]
      = [RcEvent.loginAttempt true, RcEvent.upgradeAttempt true,
          RcEvent.notify true] ∧
    RcEvent.notify false ∉ reconnectTrace [(true, true)] := by
  decide

/-- C9, amended: in a reconnection episode, the first login attempt is
issued with no preceding `connected=False` notification; every *retry*
login attempt is immediately preceded by a `connected=False` notification
(fired after the failed cycle), and a `connected=True` notification fires
only immediately after a successful login followed by a successful upgrade,
terminating the episode. -/
theorem c9_reconnect_notifications (env : List (Bool × Bool))
    (pre post : List RcEvent) (b : Bool) :
    (reconnectTrace env = pre ++ RcEvent.loginAttempt b :: post →
      pre = [] ∨ ∃ pre', pre = pre' ++ [RcEvent.notify false]) ∧
    (reconnectTrace env = pre ++ RcEvent.notify true :: post →
      post = [] ∧ ∃ pre', pre = pre' ++
        [RcEvent.loginAttempt true, RcEvent.upgradeAttempt true]) :=
  ⟨fun h => reconnect_login_preceded env pre post b h,
   fun h => reconnect_notify_true_terminal env pre post h⟩

/-- C9, witness: on the schedule "first attempt fails at login, second
succeeds", the retry login attempt is preceded by a `connected=False`
notification, and the terminal `connected=True` notification directly
follows the successful login and upgrade. -/
theorem c9_reconnect_notifications_witness :
    (([RcEvent.loginAttempt false, RcEvent.notify false] : List RcEvent) = [] ∨
      ∃ pre', ([RcEvent.loginAttempt false, RcEvent.notify false] : List RcEvent)
        = pre' ++ [RcEvent.notify false]) ∧
    (([] : List RcEvent) = [] ∧
      ∃ pre', ([RcEvent.loginAttempt false, RcEvent.notify false,
          RcEvent.loginAttempt true, RcEvent.upgradeAttempt true] : List RcEvent)
        = pre' ++ [RcEvent.loginAttempt true, RcEvent.upgradeAttempt true]) :=
  ⟨(c9_reconnect_notifications [(false, true), (true, true)]
      [RcEvent.loginAttempt false, RcEvent.notify false]
      [RcEvent.upgradeAttempt true, RcEvent.notify true] true).1 (by decide),
   (c9_reconnect_notifications [(false, true), (true, true)]
      [RcEvent.loginAttempt false, RcEvent.notify false,
        RcEvent.loginAttempt true, RcEvent.upgradeAttempt true]
      [] true).2 (by decide)⟩

end Nax
